import Mathlib

/-!
Shallow embedding of the library-management system's transaction lifecycle
engine: the Book and Transaction mongoose schemas (hooks, methods, validators),
the issue / return / renew route handlers, and the hourly overdue sweep of the
automation service.  Timestamps are integer milliseconds since the epoch;
document ids are natural numbers; a mongoose `save()` is modelled as
validation followed by the schema's pre-save hooks, returning `none` when a
validator rejects the document (the promise rejection reaches the caller's
catch block).
-/

namespace LMS

/-- Milliseconds in one day, as written in the source (`24 * 60 * 60 * 1000`). -/
def msPerDay : Int := 24 * 60 * 60 * 1000

/-- JavaScript `Math.ceil(a / b)` for an integer numerator and a positive
integer denominator, as used by `calculateFine`. -/
def jsCeilDiv (a b : Int) : Int := -((-a).ediv b)

/-- The `status` enum of the transaction schema. -/
inductive TStatus where
  | active
  | returned
  | overdue
  | renewed
deriving DecidableEq

/-- The `type` enum of the transaction schema (`borrow`, `return`, `renewal`). -/
inductive TType where
  | borrow
  | ret
  | renewal
deriving DecidableEq

/-- The inventory-relevant fields of the book schema; identity fields (title,
author, ISBN, ...) play no role in the claims and are not modelled. -/
structure Book where
  isActive : Bool
  totalCopies : Int
  availableCopies : Int
  borrowCount : Int
  lastBorrowed : Option Int
deriving DecidableEq

/-- The book schema validators that concern inventory: `totalCopies` has
`min: 1, max: 1000` and `availableCopies` has `min: 0`. -/
def Book.valid (b : Book) : Bool :=
  decide (1 ≤ b.totalCopies) && decide (b.totalCopies ≤ 1000) &&
    decide (0 ≤ b.availableCopies)

/-- The book pre-save hook: if `availableCopies > totalCopies` it is clamped
down to `totalCopies`. -/
def Book.capHook (b : Book) : Book :=
  if b.totalCopies < b.availableCopies then
    { b with availableCopies := b.totalCopies }
  else b

/-- A mongoose `save()` on a book: run the validators, then the pre-save cap
hook.  `none` models a rejected save. -/
def Book.save (b : Book) : Option Book :=
  if b.valid then some b.capHook else none

/-- `bookSchema.methods.canBorrow`: the book is active and a copy is free. -/
def Book.canBorrow (b : Book) : Bool :=
  b.isActive && decide (0 < b.availableCopies)

/-- `bookSchema.methods.borrowBook`: decrement `availableCopies`, bump
`borrowCount`, stamp `lastBorrowed`, save; throws when `canBorrow` fails. -/
def Book.borrowBook (b : Book) (now : Int) : Except String Book :=
  if b.canBorrow then
    match Book.save { b with
        availableCopies := b.availableCopies - 1,
        borrowCount := b.borrowCount + 1,
        lastBorrowed := some now } with
    | some b2 => .ok b2
    | none => .error "ValidationError"
  else .error "Book cannot be borrowed"

/-- `bookSchema.methods.returnBook`: increment `availableCopies` and save when
below `totalCopies`; otherwise throw. -/
def Book.returnBook (b : Book) : Except String Book :=
  if b.availableCopies < b.totalCopies then
    match Book.save { b with availableCopies := b.availableCopies + 1 } with
    | some b2 => .ok b2
    | none => .error "ValidationError"
  else .error "All copies are already available"

/-- The only user field the transaction routes could consult.  The issue
handler looks a user up by id but never reads this flag. -/
structure User where
  isActive : Bool
deriving DecidableEq

/-- A transaction document.  `isNew` is the mongoose flag telling the pre-save
due-date hook whether the document is being inserted for the first time. -/
structure Txn where
  user : Nat
  book : Nat
  ttype : TType
  borrowDate : Int
  dueDate : Int
  returnDate : Option Int
  status : TStatus
  fineAmount : Int
  renewalCount : Int
  isNew : Bool
deriving DecidableEq

/-- The transaction schema validators relevant here: `fineAmount` has
`min: 0` and `renewalCount` has `max: 3`. -/
def Txn.valid (t : Txn) : Bool :=
  decide (0 ≤ t.fineAmount) && decide (t.renewalCount ≤ 3)

/-- First transaction pre-save hook: a newly inserted `borrow` document gets
`dueDate = borrowDate + 14 days`, overwriting whatever was set before. -/
def Txn.dueDateHook (t : Txn) : Txn :=
  if t.isNew ∧ t.ttype = TType.borrow then
    { t with dueDate := t.borrowDate + 14 * msPerDay }
  else t

/-- Second transaction pre-save hook: an `active` document past its due date
with no `returnDate` is flipped to `overdue`. -/
def Txn.overdueHook (now : Int) (t : Txn) : Txn :=
  if t.status = TStatus.active ∧ t.dueDate < now ∧ t.returnDate = none then
    { t with status := TStatus.overdue }
  else t

/-- A mongoose `save()` on a transaction: validators, then the two pre-save
hooks in registration order, then the document is no longer new. -/
def Txn.save (now : Int) (t : Txn) : Option Txn :=
  if t.valid then
    some { Txn.overdueHook now (Txn.dueDateHook t) with isNew := false }
  else none

/-- `transactionSchema.methods.calculateFine`: only when the status is already
`overdue` does it write `fineAmount = ceil((now - dueDate) / day) * 1`. -/
def Txn.calculateFine (now : Int) (t : Txn) : Txn :=
  if t.status = TStatus.overdue then
    { t with fineAmount := jsCeilDiv (now - t.dueDate) msPerDay * 1 }
  else t

/-- `transactionSchema.methods.renewBook`: guard the renewal cap, guard that
the status is `active`, then bump `renewalCount`, extend `dueDate` by 14 days,
set status `renewed` and save. -/
def Txn.renewBook (now : Int) (t : Txn) : Except String Txn :=
  if 3 ≤ t.renewalCount then .error "Maximum renewals reached"
  else if ¬ t.status = TStatus.active then
    .error "Only active transactions can be renewed"
  else
    match Txn.save now { t with
        renewalCount := t.renewalCount + 1,
        dueDate := t.dueDate + 14 * msPerDay,
        status := TStatus.renewed } with
    | some t2 => .ok t2
    | none => .error "ValidationError"

/-- `transactionSchema.methods.returnBook`: reject if already returned, else
stamp `returnDate`, set status `returned`, call `calculateFine`, save. -/
def Txn.returnBook (now : Int) (t : Txn) : Except String Txn :=
  if t.status = TStatus.returned then .error "Book already returned"
  else
    match Txn.save now
        (Txn.calculateFine now
          { t with returnDate := some now, status := TStatus.returned }) with
    | some t2 => .ok t2
    | none => .error "ValidationError"

/-- `transactionSchema.statics.findOverdue`: documents with status `active`
and `dueDate` in the past (note: `renewed` is not part of the query). -/
def findOverdue (now : Int) (txns : List (Nat × Txn)) : List (Nat × Txn) :=
  txns.filter fun p =>
    decide (p.2.status = TStatus.active ∧ p.2.dueDate < now)

/-- Database lookup by id. -/
def findById {α : Type} : List (Nat × α) → Nat → Option α
  | [], _ => none
  | p :: rest, i => if p.1 = i then some p.2 else findById rest i

/-- Persist an updated document: every entry with the given id is replaced. -/
def setById {α : Type} : List (Nat × α) → Nat → α → List (Nat × α)
  | [], _, _ => []
  | p :: rest, i, v => (if p.1 = i then (i, v) else p) :: setById rest i v

/-- The persistent store visible to the transaction routes, plus the id the
next inserted transaction receives. -/
structure St where
  books : List (Nat × Book)
  users : List (Nat × User)
  txns : List (Nat × Txn)
  nextId : Nat
deriving DecidableEq

/-- HTTP outcomes of the transaction routes: 201, 200, 404, the 400 responses
for business-rule rejections, and the catch-all 500 reached by thrown
errors. -/
inductive Resp where
  | created
  | ok
  | notFound (msg : String)
  | conflict (msg : String)
  | serverError (msg : String)
deriving DecidableEq

/-- The transaction document the issue handler constructs: `borrowDate`
defaults to now, `dueDate` is the request value or now plus 14 days, and the
schema defaults fill in the rest. -/
def issueDoc (now : Int) (bookId userId : Nat) (reqDueDate : Option Int) : Txn :=
  { user := userId, book := bookId, ttype := TType.borrow,
    borrowDate := now,
    dueDate := match reqDueDate with
      | some d => d
      | none => now + 14 * msPerDay,
    returnDate := none, status := TStatus.active,
    fineAmount := 0, renewalCount := 0, isNew := true }

/-- `POST /issue` (after input validation and the admin check on the caller):
look up book and user, check `canBorrow`, check the borrower's overdue count
and the 5-book cap, then decrement the book and insert the transaction.  The
target user's record is fetched but none of its fields are inspected. -/
def issue (now : Int) (st : St) (bookId userId : Nat)
    (reqDueDate : Option Int) : Resp × St :=
  match findById st.books bookId with
  | none => (.notFound "Book not found", st)
  | some book =>
    match findById st.users userId with
    | none => (.notFound "User not found", st)
    | some _user =>
      if ¬ book.canBorrow then
        (.conflict "Book is not available for borrowing", st)
      else if 0 < (st.txns.filter fun p =>
          decide (p.2.user = userId ∧ p.2.status = TStatus.overdue)).length then
        (.conflict "User has overdue books. Please return them before borrowing new books.", st)
      else if 5 ≤ (st.txns.filter fun p =>
          decide (p.2.user = userId ∧
            (p.2.status = TStatus.active ∨ p.2.status = TStatus.overdue))).length then
        (.conflict "User has reached maximum borrowing limit (5 books)", st)
      else
        match book.borrowBook now with
        | .error e => (.serverError e, st)
        | .ok book2 =>
          match Txn.save now (issueDoc now bookId userId reqDueDate) with
          | none => (.serverError "ValidationError",
              { st with books := setById st.books bookId book2 })
          | some txn2 =>
            (.created, { st with
              books := setById st.books bookId book2,
              txns := st.txns ++ [(st.nextId, txn2)],
              nextId := st.nextId + 1 })

/-- `POST /return` (after input validation and the admin check): look the
transaction up, reject if already returned, run `Txn.returnBook` and then
`Book.returnBook` on the populated book.  A throw from the book step reaches
the catch block after the transaction update has already been persisted. -/
def returnRoute (now : Int) (st : St) (txnId : Nat) : Resp × St :=
  match findById st.txns txnId with
  | none => (.notFound "Transaction not found", st)
  | some txn =>
    if txn.status = TStatus.returned then
      (.conflict "Book already returned", st)
    else
      match Txn.returnBook now txn with
      | .error e => (.serverError e, st)
      | .ok txn2 =>
        match findById st.books txn.book with
        | none => (.serverError "Cannot read properties of null",
            { st with txns := setById st.txns txnId txn2 })
        | some book =>
          match book.returnBook with
          | .error e => (.serverError e,
              { st with txns := setById st.txns txnId txn2 })
          | .ok book2 =>
            (.ok, { st with
              txns := setById st.txns txnId txn2,
              books := setById st.books txn.book book2 })

/-- `POST /renew` (after input validation and the ownership check): look the
transaction up and run `Txn.renewBook`; a throw reaches the catch block. -/
def renewRoute (now : Int) (st : St) (txnId : Nat) : Resp × St :=
  match findById st.txns txnId with
  | none => (.notFound "Transaction not found", st)
  | some txn =>
    match Txn.renewBook now txn with
    | .error e => (.serverError e, st)
    | .ok txn2 => (.ok, { st with txns := setById st.txns txnId txn2 })

/-- Outcome of one run of the overdue sweep: the transaction ids for which a
notification was emitted, the resulting store, and whether the loop ran to
completion (a rejected save aborts the loop into the catch block). -/
structure SweepRun where
  notified : List Nat
  state : St
  completed : Bool
deriving DecidableEq

/-- The body of `AutomationService.checkOverdueBooks`: for each fetched
document call `calculateFine` then `save`, emitting a notification after each
successful save; a rejected save aborts the remainder of the loop. -/
def sweepLoop (now : Int) : List (Nat × Txn) → St → SweepRun
  | [], st => ⟨[], st, true⟩
  | p :: rest, st =>
    match Txn.save now (Txn.calculateFine now p.2) with
    | none => ⟨[], st, false⟩
    | some t2 =>
      let r := sweepLoop now rest { st with txns := setById st.txns p.1 t2 }
      ⟨p.1 :: r.notified, r.state, r.completed⟩

/-- `AutomationService.checkOverdueBooks` (the hourly sweep): fetch
`findOverdue`, then process each document. -/
def sweepOverdue (now : Int) (st : St) : List Nat × St :=
  let r := sweepLoop now (findOverdue now st.txns) st
  (r.notified, r.state)

/-- The transaction-engine operations reachable through the routes and the
scheduled job. -/
inductive Op where
  | opIssue (bookId userId : Nat) (reqDueDate : Option Int)
  | opReturn (txnId : Nat)
  | opRenew (txnId : Nat)
  | opSweep

/-- The store after running one operation at time `now`. -/
def Op.apply (now : Int) (st : St) : Op → St
  | .opIssue b u d => (issue now st b u d).2
  | .opReturn t => (returnRoute now st t).2
  | .opRenew t => (renewRoute now st t).2
  | .opSweep => (sweepOverdue now st).2

/-- Stores reachable from a transaction-free start by any sequence of issue,
return, renew and sweep operations, with the clock free to move between
steps. -/
inductive Reachable : St → Prop
  | start (books : List (Nat × Book)) (users : List (Nat × User)) (n : Nat) :
      Reachable ⟨books, users, [], n⟩
  | step (now : Int) (op : Op) (st : St) :
      Reachable st → Reachable (Op.apply now st op)

/-- The spec's inventory invariant for one book. -/
def Book.invOk (b : Book) : Prop :=
  0 ≤ b.availableCopies ∧ b.availableCopies ≤ b.totalCopies

/-- The spec's transaction-state invariant: `returnDate` is null exactly in
the non-terminal statuses. -/
def Txn.retOk (t : Txn) : Prop :=
  t.returnDate = none ↔ ¬ t.status = TStatus.returned

instance (b : Book) : Decidable b.invOk := by
  unfold Book.invOk
  infer_instance

instance (t : Txn) : Decidable t.retOk := by
  unfold Txn.retOk
  infer_instance

/-- The precondition order the issue handler actually implements, written
from the amended claim: book exists, then user exists, then the combined
book-active-and-copy-free check, then the borrower's overdue count, then the
5-book cap; no field of the user record is consulted at any point. -/
def issueRespOrdered (st : St) (bookId userId : Nat) : Resp :=
  match findById st.books bookId, findById st.users userId with
  | none, _ => .notFound "Book not found"
  | some _, none => .notFound "User not found"
  | some bk, some _ =>
    if ¬ (bk.isActive = true ∧ 0 < bk.availableCopies) then
      .conflict "Book is not available for borrowing"
    else if ¬ (st.txns.filter fun p =>
        decide (p.2.user = userId ∧ p.2.status = TStatus.overdue)) = [] then
      .conflict "User has overdue books. Please return them before borrowing new books."
    else if 5 ≤ (st.txns.filter fun p =>
        decide (p.2.user = userId ∧
          (p.2.status = TStatus.active ∨ p.2.status = TStatus.overdue))).length then
      .conflict "User has reached maximum borrowing limit (5 books)"
    else .created

/-- A book with one copy, one copy available. -/
def bkFree : Book := ⟨true, 1, 1, 0, none⟩

/-- A book with one copy, none available (one copy out). -/
def bkTaken : Book := ⟨true, 1, 0, 1, some 0⟩

/-- An active member record. -/
def usAct : User := ⟨true⟩

/-- A deactivated member record. -/
def usInact : User := ⟨false⟩

/-- Store with one free book and one active user, no transactions. -/
def stIssue : St := ⟨[(0, bkFree)], [(0, usAct)], [], 1⟩

/-- Store whose only user is deactivated. -/
def stInact : St := ⟨[(0, bkFree)], [(0, usInact)], [], 1⟩

/-- A persisted active borrow transaction whose due date (100) has passed. -/
def tLateActive : Txn := ⟨0, 0, .borrow, 0, 100, none, .active, 0, 0, false⟩

/-- A persisted renewed transaction whose due date (100) has passed. -/
def tLateRenewed : Txn := ⟨0, 0, .borrow, 0, 100, none, .renewed, 0, 1, false⟩

/-- Store holding one late active transaction on a fully available book. -/
def stSweep : St := ⟨[(0, bkFree)], [(0, usAct)], [(0, tLateActive)], 1⟩

/-- Store holding only a late renewed transaction. -/
def stRenewedLate : St := ⟨[], [], [(0, tLateRenewed)], 1⟩

/-- Store holding a late renewed and a late active transaction. -/
def stBothLate : St := ⟨[], [], [(0, tLateRenewed), (1, tLateActive)], 2⟩

/-- Store where the late active transaction's book has its copy out. -/
def stRet : St := ⟨[(0, bkTaken)], [(0, usAct)], [(0, tLateActive)], 1⟩

/-- An active borrow transaction with renewal count 0 and due date 100. -/
def tRenew0 : Txn := ⟨0, 0, .borrow, 0, 100, none, .active, 0, 0, false⟩

/-- `tRenew0` after one successful renewal. -/
def tRenew1 : Txn := ⟨0, 0, .borrow, 0, 100 + 14 * msPerDay, none, .renewed, 0, 1, false⟩

/-- The transaction the C1 scenario issue creates (due in 14 days). -/
def tC1issued : Txn := ⟨0, 0, .borrow, 0, 14 * msPerDay, none, .active, 0, 0, false⟩

/-- The C1 transaction after the day-15 sweep: overdue, but with fine 0. -/
def tC1overdue : Txn := ⟨0, 0, .borrow, 0, 14 * msPerDay, none, .overdue, 0, 0, false⟩

/-- The C1 transaction after the day-15 return: fine still 0. -/
def tC1returned : Txn :=
  ⟨0, 0, .borrow, 0, 14 * msPerDay, some (15 * msPerDay), .returned, 0, 0, false⟩

/-- C1 store after the issue. -/
def stC1afterIssue : St := ⟨[(0, bkTaken)], [(0, usAct)], [(1, tC1issued)], 2⟩

/-- C1 store after the sweep. -/
def stC1afterSweep : St := ⟨[(0, bkTaken)], [(0, usAct)], [(1, tC1overdue)], 2⟩

/-- C1 store after the return. -/
def stC1afterReturn : St :=
  ⟨[(0, ⟨true, 1, 1, 1, some 0⟩)], [(0, usAct)], [(1, tC1returned)], 2⟩

/-- The due-date hook only touches `dueDate`. -/
theorem dueDateHook_fields (t : Txn) :
    (Txn.dueDateHook t).status = t.status ∧
    (Txn.dueDateHook t).returnDate = t.returnDate ∧
    (Txn.dueDateHook t).fineAmount = t.fineAmount ∧
    (Txn.dueDateHook t).renewalCount = t.renewalCount ∧
    (Txn.dueDateHook t).borrowDate = t.borrowDate := by
  unfold Txn.dueDateHook
  split <;> exact ⟨rfl, rfl, rfl, rfl, rfl⟩

/-- A document that is not new is unchanged by the due-date hook. -/
theorem dueDateHook_of_not_new (t : Txn) (h : t.isNew = false) :
    Txn.dueDateHook t = t := by
  unfold Txn.dueDateHook
  rw [h]
  simp

/-- The overdue hook only touches `status`. -/
theorem overdueHook_fields (now : Int) (t : Txn) :
    (Txn.overdueHook now t).returnDate = t.returnDate ∧
    (Txn.overdueHook now t).fineAmount = t.fineAmount ∧
    (Txn.overdueHook now t).renewalCount = t.renewalCount ∧
    (Txn.overdueHook now t).dueDate = t.dueDate ∧
    (Txn.overdueHook now t).borrowDate = t.borrowDate ∧
    (Txn.overdueHook now t).isNew = t.isNew := by
  unfold Txn.overdueHook
  split <;> exact ⟨rfl, rfl, rfl, rfl, rfl, rfl⟩

/-- The overdue hook leaves the status unchanged or sets it to `overdue`,
and it only fires on `active` documents. -/
theorem overdueHook_status (now : Int) (t : Txn) :
    Txn.overdueHook now t = t ∨
      (t.status = TStatus.active ∧
        (Txn.overdueHook now t).status = TStatus.overdue) := by
  unfold Txn.overdueHook
  split
  case isTrue h => exact Or.inr ⟨h.1, rfl⟩
  case isFalse h => exact Or.inl rfl

/-- A non-active document is unchanged by the overdue hook. -/
theorem overdueHook_of_not_active (now : Int) (t : Txn)
    (h : ¬ t.status = TStatus.active) : Txn.overdueHook now t = t := by
  unfold Txn.overdueHook
  rw [if_neg]
  intro hc
  exact h hc.1

/-- Characterization of a successful transaction save. -/
theorem Txn.save_eq_some {now : Int} {t t' : Txn}
    (h : Txn.save now t = some t') :
    t.valid = true ∧
      t' = { Txn.overdueHook now (Txn.dueDateHook t) with isNew := false } := by
  unfold Txn.save at h
  split at h
  case isTrue hv => exact ⟨hv, (Option.some_injective _ h).symm⟩
  case isFalse hv => cases h

/-- A valid document saves successfully. -/
theorem Txn.save_of_valid {now : Int} {t : Txn} (h : t.valid = true) :
    Txn.save now t =
      some { Txn.overdueHook now (Txn.dueDateHook t) with isNew := false } := by
  unfold Txn.save
  rw [if_pos h]

/-- A successful save never changes `returnDate`, `fineAmount`,
`renewalCount` or `borrowDate`. -/
theorem Txn.save_fields {now : Int} {t t' : Txn}
    (h : Txn.save now t = some t') :
    t'.returnDate = t.returnDate ∧ t'.fineAmount = t.fineAmount ∧
      t'.renewalCount = t.renewalCount ∧ t'.borrowDate = t.borrowDate := by
  obtain ⟨-, rfl⟩ := Txn.save_eq_some h
  have h1 := overdueHook_fields now (Txn.dueDateHook t)
  have h2 := dueDateHook_fields t
  exact ⟨h1.1.trans h2.2.1, h1.2.1.trans h2.2.2.1,
    h1.2.2.1.trans h2.2.2.2.1, h1.2.2.2.2.1.trans h2.2.2.2.2⟩

/-- A successful save puts the document in status `returned` exactly when it
already was `returned`. -/
theorem Txn.save_status_returned {now : Int} {t t' : Txn}
    (h : Txn.save now t = some t') :
    (t'.status = TStatus.returned ↔ t.status = TStatus.returned) := by
  obtain ⟨-, rfl⟩ := Txn.save_eq_some h
  have hd := (dueDateHook_fields t).1
  rcases overdueHook_status now (Txn.dueDateHook t) with he | ⟨ha, hs⟩
  · show (Txn.overdueHook now (Txn.dueDateHook t)).status = _ ↔ _
    rw [he, hd]
  · show (Txn.overdueHook now (Txn.dueDateHook t)).status = _ ↔ _
    rw [hs, hd.symm.trans ha]
    constructor <;> intro hc <;> cases hc

/-- `calculateFine` only touches `fineAmount`. -/
theorem calculateFine_fields (now : Int) (t : Txn) :
    (Txn.calculateFine now t).status = t.status ∧
    (Txn.calculateFine now t).returnDate = t.returnDate ∧
    (Txn.calculateFine now t).renewalCount = t.renewalCount ∧
    (Txn.calculateFine now t).dueDate = t.dueDate ∧
    (Txn.calculateFine now t).isNew = t.isNew := by
  unfold Txn.calculateFine
  split <;> exact ⟨rfl, rfl, rfl, rfl, rfl⟩

/-- `calculateFine` is the identity unless the status is already `overdue`
when it is called. -/
theorem calculateFine_of_not_overdue (now : Int) (t : Txn)
    (h : ¬ t.status = TStatus.overdue) : Txn.calculateFine now t = t := by
  unfold Txn.calculateFine
  rw [if_neg h]

/-- Any book a successful save produces satisfies the inventory invariant. -/
theorem Book.save_invOk {b b' : Book} (h : Book.save b = some b') :
    b'.invOk := by
  unfold Book.save at h
  split at h
  case isFalse => cases h
  case isTrue hv =>
    have hb' := Option.some_injective _ h
    unfold Book.valid at hv
    simp only [Bool.and_eq_true, decide_eq_true_eq] at hv
    subst hb'
    unfold Book.capHook Book.invOk
    split
    case isTrue hlt =>
      exact ⟨(by omega : (0 : Int) ≤ b.totalCopies), le_refl b.totalCopies⟩
    case isFalse hlt => exact ⟨hv.2, by omega⟩

/-- A found id is an entry of the list. -/
theorem findById_mem {α : Type} {l : List (Nat × α)} {i : Nat} {x : α}
    (h : findById l i = some x) : (i, x) ∈ l := by
  induction l with
  | nil => cases h
  | cons p rest ih =>
    unfold findById at h
    split at h
    case isTrue he =>
      have hx := Option.some_injective _ h
      rw [← he, ← hx]
      exact List.mem_cons_self _ _
    case isFalse he => exact List.mem_cons_of_mem _ (ih h)

/-- Membership in an updated list: the new value at the key, or an untouched
entry at a different key. -/
theorem mem_setById {α : Type} {l : List (Nat × α)} {i : Nat} {v : α}
    {q : Nat × α} (h : q ∈ setById l i v) :
    q = (i, v) ∨ (¬ q.1 = i ∧ q ∈ l) := by
  induction l with
  | nil => cases h
  | cons p rest ih =>
    unfold setById at h
    rcases List.mem_cons.mp h with hh | ht
    · split at hh
      case isTrue => exact Or.inl hh
      case isFalse hne =>
        subst hh
        exact Or.inr ⟨hne, List.mem_cons_self _ _⟩
    · rcases ih ht with hc | ⟨hne, hm⟩
      · exact Or.inl hc
      · exact Or.inr ⟨hne, List.mem_cons_of_mem _ hm⟩

/-- An entry at another key is untouched by `setById`. -/
theorem mem_setById_of_ne {α : Type} {l : List (Nat × α)} {i : Nat} {v : α}
    {q : Nat × α} (h : q ∈ l) (hne : ¬ q.1 = i) : q ∈ setById l i v := by
  induction l with
  | nil => cases h
  | cons p rest ih =>
    unfold setById
    rcases List.mem_cons.mp h with hh | ht
    · subst hh
      rw [if_neg hne]
      exact List.mem_cons_self _ _
    · exact List.mem_cons_of_mem _ (ih ht)

/-- After an update, looking the key up returns the new value (provided the
key was present). -/
theorem findById_setById {α : Type} {l : List (Nat × α)} {i : Nat} {v x : α}
    (h : findById l i = some x) : findById (setById l i v) i = some v := by
  induction l with
  | nil => cases h
  | cons p rest ih =>
    unfold findById at h
    by_cases he : p.1 = i
    · rw [if_pos he] at h
      simp [setById, findById, he]
    · rw [if_neg he] at h
      simp only [setById, findById, if_neg he]
      exact ih h

/-- Two entries of a list with pairwise distinct keys that share a key are
the same entry. -/
theorem eq_of_mem_nodup_keys {α : Type} {l : List (Nat × α)}
    (hnd : (l.map Prod.fst).Nodup) {p q : Nat × α}
    (hp : p ∈ l) (hq : q ∈ l) (hk : p.1 = q.1) : p = q := by
  induction l with
  | nil => cases hp
  | cons a rest ih =>
    rw [List.map_cons, List.nodup_cons] at hnd
    rcases List.mem_cons.mp hp with hp1 | hp2 <;>
      rcases List.mem_cons.mp hq with hq1 | hq2
    · rw [hp1, hq1]
    · exfalso
      apply hnd.1
      rw [← hp1, hk]
      exact List.mem_map_of_mem Prod.fst hq2
    · exfalso
      apply hnd.1
      rw [← hq1, ← hk]
      exact List.mem_map_of_mem Prod.fst hp2
    · exact ih hnd.2 hp2 hq2

/-- The sweep loop only rewrites transactions; books, users and the id
counter are untouched. -/
theorem sweepLoop_books (now : Int) (items : List (Nat × Txn)) :
    ∀ st : St,
      (sweepLoop now items st).state.books = st.books ∧
        (sweepLoop now items st).state.users = st.users ∧
        (sweepLoop now items st).state.nextId = st.nextId := by
  induction items with
  | nil => exact fun st => ⟨rfl, rfl, rfl⟩
  | cons p rest ih =>
    intro st
    unfold sweepLoop
    split
    · exact ⟨rfl, rfl, rfl⟩
    · exact ih _

/-- A property holding of every stored transaction and of every save the
loop performs holds of every transaction after the loop. -/
theorem sweepLoop_pointwise (P : Txn → Prop) (now : Int)
    (items : List (Nat × Txn)) :
    ∀ st : St,
      (∀ p ∈ items, ∀ t2,
        Txn.save now (Txn.calculateFine now p.2) = some t2 → P t2) →
      (∀ q ∈ st.txns, P q.2) →
      ∀ q ∈ (sweepLoop now items st).state.txns, P q.2 := by
  induction items with
  | nil => exact fun st _ hst => hst
  | cons p rest ih =>
    intro st hitems hst
    unfold sweepLoop
    split
    · exact hst
    case h_2 t2 heq =>
      refine ih { st with txns := setById st.txns p.1 t2 } ?_ ?_
      · exact fun r hr => hitems r (List.mem_cons_of_mem _ hr)
      · intro q hq
        rcases mem_setById hq with hq1 | ⟨-, hq2⟩
        · rw [hq1]
          exact hitems p (List.mem_cons_self _ _) t2 heq
        · exact hst q hq2

/-- If every fetched document saves into a non-active status and the fetched
list covers every stored late active transaction, then no late active
transaction survives the loop. -/
theorem sweepLoop_clears (now : Int) (items : List (Nat × Txn)) :
    ∀ st : St,
      (∀ p ∈ items, ∃ t2,
        Txn.save now (Txn.calculateFine now p.2) = some t2 ∧
          ¬ t2.status = TStatus.active) →
      (∀ q ∈ st.txns,
        q.2.status = TStatus.active → q.2.dueDate < now → q ∈ items) →
      ∀ q ∈ (sweepLoop now items st).state.txns,
        q.2.status = TStatus.active → ¬ q.2.dueDate < now := by
  induction items with
  | nil =>
    intro st _ h2 q hq ha hd
    exact absurd (h2 q hq ha hd) (List.not_mem_nil q)
  | cons p rest ih =>
    intro st h1 h2
    obtain ⟨t2, hsave, hna⟩ := h1 p (List.mem_cons_self _ _)
    unfold sweepLoop
    split
    case h_1 heq => rw [heq] at hsave; cases hsave
    case h_2 t2' heq =>
      rw [heq] at hsave
      have ht2 : t2' = t2 := Option.some_injective _ hsave
      subst ht2
      refine ih { st with txns := setById st.txns p.1 t2' } ?_ ?_
      · exact fun r hr => h1 r (List.mem_cons_of_mem _ hr)
      · intro q hq ha hd
        rcases mem_setById hq with hq1 | ⟨hne, hq2⟩
        · exfalso
          apply hna
          rw [← ha, hq1]
        · rcases List.mem_cons.mp (h2 q hq2 ha hd) with hh | ht
          · exfalso
            apply hne
            rw [hh]
          · exact ht


/-- A book produced by a successful `borrowBook` call went through a
successful save and hence satisfies the inventory invariant. -/
theorem Book.borrowBook_ok {b b2 : Book} {now : Int}
    (h : Book.borrowBook b now = Except.ok b2) : b2.invOk := by
  unfold Book.borrowBook at h
  split at h
  case isFalse => cases h
  case isTrue =>
    split at h
    case h_1 b3 heq =>
      injection h with h'
      rw [← h']
      exact Book.save_invOk heq
    case h_2 => cases h

/-- A book produced by a successful book-side `returnBook` call satisfies
the inventory invariant. -/
theorem Book.returnBook_inv {b b2 : Book}
    (h : Book.returnBook b = Except.ok b2) : b2.invOk := by
  unfold Book.returnBook at h
  split at h
  case isFalse => cases h
  case isTrue =>
    split at h
    case h_1 b3 heq =>
      injection h with h'
      rw [← h']
      exact Book.save_invOk heq
    case h_2 => cases h

/-- Unfolding a successful transaction-side renew. -/
theorem Txn.renewBook_ok {now : Int} {t t2 : Txn}
    (h : Txn.renewBook now t = Except.ok t2) :
    t.status = TStatus.active ∧ ¬ 3 ≤ t.renewalCount ∧
      Txn.save now { t with
        renewalCount := t.renewalCount + 1,
        dueDate := t.dueDate + 14 * msPerDay,
        status := TStatus.renewed } = some t2 := by
  unfold Txn.renewBook at h
  split at h
  case isTrue => cases h
  case isFalse hcap =>
    split at h
    case isTrue => cases h
    case isFalse hact =>
      split at h
      case h_1 t3 heq =>
        injection h with h'
        rw [← h']
        exact ⟨not_not.mp hact, hcap, heq⟩
      case h_2 => cases h

/-- Unfolding a successful transaction-side return. -/
theorem Txn.returnBook_ok {now : Int} {t t2 : Txn}
    (h : Txn.returnBook now t = Except.ok t2) :
    ¬ t.status = TStatus.returned ∧
      Txn.save now (Txn.calculateFine now
        { t with returnDate := some now, status := TStatus.returned }) =
          some t2 := by
  unfold Txn.returnBook at h
  split at h
  case isTrue => cases h
  case isFalse hs =>
    split at h
    case h_1 t3 heq =>
      injection h with h'
      rw [← h']
      exact ⟨hs, heq⟩
    case h_2 => cases h

/-- The issue handler either leaves the book table alone or stores exactly
one successfully borrowed book. -/
theorem issue_books (now : Int) (st : St) (b u : Nat) (d : Option Int) :
    (issue now st b u d).2.books = st.books ∨
      ∃ bk book2, findById st.books b = some bk ∧
        Book.borrowBook bk now = Except.ok book2 ∧
        (issue now st b u d).2.books = setById st.books b book2 := by
  unfold issue
  split
  · exact Or.inl rfl
  case h_2 bk hbk =>
    split
    · exact Or.inl rfl
    split
    · exact Or.inl rfl
    split
    · exact Or.inl rfl
    split
    · exact Or.inl rfl
    split
    case h_1 e heq => exact Or.inl rfl
    case h_2 book2 heq =>
      split
      · exact Or.inr ⟨bk, book2, hbk, heq, rfl⟩
      · exact Or.inr ⟨bk, book2, hbk, heq, rfl⟩

/-- The issue handler either leaves the transaction table alone or appends
exactly one saved copy of the constructed document. -/
theorem issue_txns (now : Int) (st : St) (b u : Nat) (d : Option Int) :
    (issue now st b u d).2.txns = st.txns ∨
      ∃ txn2, Txn.save now (issueDoc now b u d) = some txn2 ∧
        (issue now st b u d).2.txns = st.txns ++ [(st.nextId, txn2)] := by
  unfold issue
  split
  · exact Or.inl rfl
  split
  · exact Or.inl rfl
  split
  · exact Or.inl rfl
  split
  · exact Or.inl rfl
  split
  · exact Or.inl rfl
  split
  · exact Or.inl rfl
  split
  case h_1 heq => exact Or.inl rfl
  case h_2 txn2 heq => exact Or.inr ⟨txn2, heq, rfl⟩

/-- The issue handler answers 201 exactly on the branch that saved and
appended the constructed document. -/
theorem issue_cases (now : Int) (st : St) (b u : Nat) (d : Option Int) :
    (∃ txn2, Txn.save now (issueDoc now b u d) = some txn2 ∧
        (issue now st b u d).2.txns = st.txns ++ [(st.nextId, txn2)]) ∨
      (¬ (issue now st b u d).1 = Resp.created ∧
        (issue now st b u d).2.txns = st.txns) := by
  unfold issue
  split
  · exact Or.inr ⟨fun hc => Resp.noConfusion hc, rfl⟩
  split
  · exact Or.inr ⟨fun hc => Resp.noConfusion hc, rfl⟩
  split
  · exact Or.inr ⟨fun hc => Resp.noConfusion hc, rfl⟩
  split
  · exact Or.inr ⟨fun hc => Resp.noConfusion hc, rfl⟩
  split
  · exact Or.inr ⟨fun hc => Resp.noConfusion hc, rfl⟩
  split
  · exact Or.inr ⟨fun hc => Resp.noConfusion hc, rfl⟩
  split
  case h_1 heq => exact Or.inr ⟨fun hc => Resp.noConfusion hc, rfl⟩
  case h_2 txn2 heq => exact Or.inl ⟨txn2, heq, rfl⟩

/-- A created response means the constructed document was saved and appended
with the next fresh id. -/
theorem issue_created {now : Int} {st : St} {b u : Nat} {d : Option Int}
    (h : (issue now st b u d).1 = Resp.created) :
    ∃ txn2, Txn.save now (issueDoc now b u d) = some txn2 ∧
      (issue now st b u d).2.txns = st.txns ++ [(st.nextId, txn2)] := by
  rcases issue_cases now st b u d with hx | ⟨hnc, -⟩
  · exact hx
  · exact absurd h hnc

/-- The return handler either leaves the book table alone or stores exactly
one successfully incremented book. -/
theorem returnRoute_books (now : Int) (st : St) (tid : Nat) :
    (returnRoute now st tid).2.books = st.books ∨
      ∃ t bk book2, findById st.txns tid = some t ∧
        findById st.books t.book = some bk ∧
        Book.returnBook bk = Except.ok book2 ∧
        (returnRoute now st tid).2.books = setById st.books t.book book2 := by
  unfold returnRoute
  split
  · exact Or.inl rfl
  case h_2 t ht =>
    split
    · exact Or.inl rfl
    split
    · exact Or.inl rfl
    case h_2 t2 heq =>
      split
      · exact Or.inl rfl
      case h_2 bk hbk =>
        split
        · exact Or.inl rfl
        case h_2 book2 hbook =>
          exact Or.inr ⟨t, bk, book2, ht, hbk, hbook, rfl⟩

/-- The return handler either leaves the transaction table alone or rewrites
the looked-up transaction with its successfully returned version. -/
theorem returnRoute_txns (now : Int) (st : St) (tid : Nat) :
    (returnRoute now st tid).2.txns = st.txns ∨
      ∃ t t2, findById st.txns tid = some t ∧
        Txn.returnBook now t = Except.ok t2 ∧
        (returnRoute now st tid).2.txns = setById st.txns tid t2 := by
  unfold returnRoute
  split
  · exact Or.inl rfl
  case h_2 t ht =>
    split
    · exact Or.inl rfl
    split
    · exact Or.inl rfl
    case h_2 t2 heq =>
      split
      · exact Or.inr ⟨t, t2, ht, heq, rfl⟩
      split
      · exact Or.inr ⟨t, t2, ht, heq, rfl⟩
      · exact Or.inr ⟨t, t2, ht, heq, rfl⟩

/-- The renew handler never touches the book table. -/
theorem renewRoute_books (now : Int) (st : St) (tid : Nat) :
    (renewRoute now st tid).2.books = st.books := by
  unfold renewRoute
  split
  · rfl
  split
  · rfl
  · rfl

/-- The renew handler either leaves the transaction table alone or rewrites
the looked-up transaction with its successfully renewed version. -/
theorem renewRoute_txns (now : Int) (st : St) (tid : Nat) :
    (renewRoute now st tid).2.txns = st.txns ∨
      ∃ t t2, findById st.txns tid = some t ∧
        Txn.renewBook now t = Except.ok t2 ∧
        (renewRoute now st tid).2.txns = setById st.txns tid t2 := by
  unfold renewRoute
  split
  · exact Or.inl rfl
  case h_2 t ht =>
    split
    · exact Or.inl rfl
    case h_2 t2 heq => exact Or.inr ⟨t, t2, ht, heq, rfl⟩

/-- C1: the end-to-end fine scenario.  With `totalCopies = 1` and
`availableCopies = 1`, issuing at time 0 gives `availableCopies = 0`, status
`active`, `dueDate = borrowDate + 14` days; the sweep on day 15 flips the
transaction to `overdue` but leaves `fineAmount = 0`, because
`calculateFine` runs while the status is still `active` and only the
subsequent pre-save hook flips the status; the return on day 15 restores
`availableCopies = 1`, sets `returnDate` and status `returned`, but again
leaves `fineAmount = 0`, because `returnBook` sets status `returned` before
calling `calculateFine`.  The claimed `fineAmount = 1` after the sweep and
`fineAmount ≥ 1` after the return never happen: no code path ever assigns a
nonzero fine. -/
theorem C1_scenario_fine_never_assessed :
    issue 0 stIssue 0 0 none = (Resp.created, stC1afterIssue) ∧
      tC1issued.status = TStatus.active ∧
      tC1issued.dueDate = tC1issued.borrowDate + 14 * msPerDay ∧
      sweepOverdue (15 * msPerDay) stC1afterIssue = ([1], stC1afterSweep) ∧
      tC1overdue.status = TStatus.overdue ∧
      tC1overdue.fineAmount = 0 ∧
      returnRoute (15 * msPerDay) stC1afterSweep 1 = (Resp.ok, stC1afterReturn) ∧
      tC1returned.status = TStatus.returned ∧
      tC1returned.returnDate = some (15 * msPerDay) ∧
      findById stC1afterReturn.books 0 = some ⟨true, 1, 1, 1, some 0⟩ ∧
      tC1returned.fineAmount = 0 := by
  decide

/-- C2 counterexample: the second renewal attempt already fails.  Renewing an
active transaction with `renewalCount = 0` succeeds and sets the status to
`renewed`, but `renewBook` only accepts status `active`, so the repeat
attempt throws `Only active transactions can be renewed` — the claimed
second and third successes never happen. -/
theorem C2_cex_second_renew_fails :
    Txn.renewBook 5 tRenew0 = Except.ok tRenew1 ∧
      tRenew1.renewalCount = 1 ∧ tRenew1.status = TStatus.renewed ∧
      Txn.renewBook 6 tRenew1 =
        Except.error "Only active transactions can be renewed" := by
  exact ⟨rfl, rfl, rfl, rfl⟩

/-- C3 counterexample: a `renewed` transaction whose due date has passed and
which has no return date is not transitioned by a run of the sweep — the
store comes back unchanged and nothing is reported, because `findOverdue`
queries only status `active`. -/
theorem C3_cex_sweep_skips_renewed :
    tLateRenewed.status = TStatus.renewed ∧
      tLateRenewed.dueDate < 200 ∧ tLateRenewed.returnDate = none ∧
      sweepOverdue 200 stRenewedLate = ([], stRenewedLate) := by
  decide

/-- C4 counterexample: issuing with a caller-supplied `requestedDueDate` of
999 creates a transaction whose `dueDate` is `borrowDate + 14` days, not
999 — the pre-save hook overwrites the requested value on every new borrow
document. -/
theorem C4_cex_requested_dueDate_overwritten :
    (issue 0 stIssue 0 0 (some 999)).1 = Resp.created ∧
      (issue 0 stIssue 0 0 (some 999)).2.txns = [(1, tC1issued)] ∧
      ¬ tC1issued.dueDate = 999 ∧
      tC1issued.dueDate = 14 * msPerDay := by
  decide

/-- C5 counterexample: the issue handler never checks that the target user is
active — issuing to a deactivated user succeeds, while the claim requires
the `user exists and is active` precondition to fail. -/
theorem C5_cex_inactive_user_can_borrow :
    findById stInact.users 0 = some usInact ∧
      usInact.isActive = false ∧
      (issue 0 stInact 0 0 none).1 = Resp.created := by
  decide

/-- C6 counterexample: returning an unreturned transaction whose book
already has `availableCopies = totalCopies` does not succeed with a capped
increment — `Book.returnBook` throws and the request ends in the catch
block (HTTP 500, neither success nor the claimed Conflict-only failure),
with the transaction nevertheless already marked returned. -/
theorem C6_cex_full_book_return_throws :
    findById stSweep.txns 0 = some tLateActive ∧
      ¬ tLateActive.status = TStatus.returned ∧
      bkFree.availableCopies = bkFree.totalCopies ∧
      (returnRoute 200 stSweep 0).1 =
        Resp.serverError "All copies are already available" ∧
      (∃ t', findById (returnRoute 200 stSweep 0).2.txns 0 = some t' ∧
        t'.status = TStatus.returned) := by
  refine ⟨by decide, by decide, by decide, by decide, ?_⟩
  exact ⟨⟨0, 0, .borrow, 0, 100, some 200, .returned, 0, 0, false⟩,
    by decide, by decide⟩



/-- An entry at a key not occurring in the processed list survives the sweep
loop untouched. -/
theorem sweepLoop_untouched (now : Int) (items : List (Nat × Txn)) :
    ∀ (st : St) (q : Nat × Txn), q ∈ st.txns →
      (∀ p ∈ items, ¬ q.1 = p.1) →
      q ∈ (sweepLoop now items st).state.txns := by
  induction items with
  | nil => exact fun st q hq _ => hq
  | cons p rest ih =>
    intro st q hq hk
    unfold sweepLoop
    split
    · exact hq
    case h_2 t2 heq =>
      refine ih _ q ?_ ?_
      · exact mem_setById_of_ne hq (hk p (List.mem_cons_self _ _))
      · exact fun r hr => hk r (List.mem_cons_of_mem _ hr)

/-- Unfolding membership in the overdue query result. -/
theorem mem_findOverdue {now : Int} {txns : List (Nat × Txn)} {p : Nat × Txn}
    (hp : p ∈ findOverdue now txns) :
    p ∈ txns ∧ p.2.status = TStatus.active ∧ p.2.dueDate < now := by
  unfold findOverdue at hp
  have h2 := List.mem_filter.mp hp
  exact ⟨h2.1, decide_eq_true_iff.mp h2.2⟩

/-- A stored late active transaction is in the overdue query result. -/
theorem mem_findOverdue_of {now : Int} {txns : List (Nat × Txn)}
    {p : Nat × Txn} (hm : p ∈ txns) (ha : p.2.status = TStatus.active)
    (hd : p.2.dueDate < now) : p ∈ findOverdue now txns := by
  unfold findOverdue
  exact List.mem_filter.mpr ⟨hm, decide_eq_true ⟨ha, hd⟩⟩

/-- On a well-formed store every document the sweep fetches saves
successfully, into status `overdue`. -/
theorem sweep_item_save (now : Int) {st : St}
    (hval : ∀ q ∈ st.txns, q.2.valid = true)
    (hnew : ∀ q ∈ st.txns, q.2.isNew = false)
    (hret : ∀ q ∈ st.txns, q.2.retOk) :
    ∀ p ∈ findOverdue now st.txns, ∃ t2,
      Txn.save now (Txn.calculateFine now p.2) = some t2 ∧
        t2.status = TStatus.overdue := by
  intro p hp
  obtain ⟨hmem, ha, hd⟩ := mem_findOverdue hp
  have hcf : Txn.calculateFine now p.2 = p.2 :=
    calculateFine_of_not_overdue now p.2
      (by rw [ha]; intro hc; exact TStatus.noConfusion hc)
  have hdd : Txn.dueDateHook p.2 = p.2 := dueDateHook_of_not_new p.2 (hnew p hmem)
  have hrd : p.2.returnDate = none := by
    have hro := hret p hmem
    unfold Txn.retOk at hro
    exact hro.mpr (by rw [ha]; intro hc; exact TStatus.noConfusion hc)
  rw [hcf]
  refine ⟨_, Txn.save_of_valid (hval p hmem), ?_⟩
  rw [hdd]
  show (Txn.overdueHook now p.2).status = TStatus.overdue
  unfold Txn.overdueHook
  rw [if_pos ⟨ha, hd, hrd⟩]

/-- After one run of the sweep on a well-formed store, no stored transaction
is both `active` and past due. -/
theorem sweep_clears_late_active (now : Int) (st : St)
    (hval : ∀ q ∈ st.txns, q.2.valid = true)
    (hnew : ∀ q ∈ st.txns, q.2.isNew = false)
    (hret : ∀ q ∈ st.txns, q.2.retOk) :
    ∀ q ∈ (sweepOverdue now st).2.txns,
      q.2.status = TStatus.active → ¬ q.2.dueDate < now := by
  refine sweepLoop_clears now (findOverdue now st.txns) st ?_ ?_
  · intro p hp
    obtain ⟨t2, hs, hst⟩ := sweep_item_save now hval hnew hret p hp
    exact ⟨t2, hs, by rw [hst]; intro hc; exact TStatus.noConfusion hc⟩
  · intro q hq ha hd
    exact mem_findOverdue_of hq ha hd

/-- A successful save preserves the returnDate-iff-status invariant. -/
theorem retOk_of_save {now : Int} {t t2 : Txn}
    (hs : Txn.save now t = some t2) (h : t.retOk) : t2.retOk := by
  have hf := (Txn.save_fields hs).1
  have hst := Txn.save_status_returned hs
  unfold Txn.retOk at h ⊢
  rw [hf, h]
  exact not_congr hst.symm

/-- C9: the sweep is idempotent.  On a store whose transactions pass the
schema validators, are persisted (not new) and satisfy the returnDate
invariant, a second run of `sweepOverdue` with the clock unchanged finds
nothing: it reports no newly-overdue transactions and returns the store of
the first run unchanged — no further status transitions and no fine
accrual. -/
theorem C9_sweep_idempotent (now : Int) (st : St)
    (hval : ∀ q ∈ st.txns, q.2.valid = true)
    (hnew : ∀ q ∈ st.txns, q.2.isNew = false)
    (hret : ∀ q ∈ st.txns, q.2.retOk) :
    sweepOverdue now (sweepOverdue now st).2 =
      ([], (sweepOverdue now st).2) := by
  have hclear := sweep_clears_late_active now st hval hnew hret
  have hempty : findOverdue now (sweepOverdue now st).2.txns = [] := by
    unfold findOverdue
    refine List.filter_eq_nil_iff.mpr ?_
    intro q hq hc
    obtain ⟨ha, hd⟩ := decide_eq_true_iff.mp hc
    exact hclear q hq ha hd
  set st1 := (sweepOverdue now st).2 with hst1
  unfold sweepOverdue
  rw [hempty]
  rfl

/-- C9 witness: a store with one late active transaction. -/
theorem C9_sweep_idempotent_witness :
    sweepOverdue 200 ((sweepOverdue 200 stSweep).2) =
      ([], (sweepOverdue 200 stSweep).2) :=
  C9_sweep_idempotent 200 stSweep (by decide) (by decide) (by decide)

/-- C3 (amended): overdue promotion covers only `active` transactions.  On a
well-formed store with distinct ids, after a sweep no late active
transaction remains unpromoted; but every non-active transaction — in
particular a late `renewed` one — is left exactly as it was, and the lazy
pre-save hook likewise only ever promotes documents whose status is
`active`. -/
theorem C3_only_active_promoted (now : Int) (st : St)
    (hval : ∀ q ∈ st.txns, q.2.valid = true)
    (hnew : ∀ q ∈ st.txns, q.2.isNew = false)
    (hret : ∀ q ∈ st.txns, q.2.retOk)
    (hkeys : (st.txns.map Prod.fst).Nodup) :
    (∀ q ∈ (sweepOverdue now st).2.txns,
        q.2.status = TStatus.active → ¬ q.2.dueDate < now) ∧
      (∀ q ∈ st.txns, ¬ q.2.status = TStatus.active →
        q ∈ (sweepOverdue now st).2.txns) ∧
      (∀ t : Txn, ¬ t.status = TStatus.active →
        Txn.overdueHook now t = t) := by
  refine ⟨sweep_clears_late_active now st hval hnew hret, ?_, ?_⟩
  · intro q hq hna
    refine sweepLoop_untouched now (findOverdue now st.txns) st q hq ?_
    intro p hp hqp
    obtain ⟨hpm, hpa, -⟩ := mem_findOverdue hp
    have hqe := eq_of_mem_nodup_keys hkeys hq hpm hqp
    exact hna (by rw [hqe]; exact hpa)
  · exact fun t ht => overdueHook_of_not_active now t ht

/-- C3 witness: in a store holding a late renewed and a late active
transaction, the renewed one survives the sweep unchanged. -/
theorem C3_only_active_promoted_witness :
    (0, tLateRenewed) ∈ (sweepOverdue 200 stBothLate).2.txns :=
  (C3_only_active_promoted 200 stBothLate (by decide) (by decide) (by decide)
    (by decide)).2.1 (0, tLateRenewed) (by decide) (by decide)

/-- C7: the inventory invariant `0 ≤ availableCopies ≤ totalCopies` is
preserved by every operation — issue's borrow decrement, return's
increment, renew and the sweep — because every book mutation goes through
`Book.save`, whose validators and cap hook re-establish the bounds. -/
theorem C7_inventory_invariant_preserved (now : Int) (st : St) (op : Op)
    (h : ∀ q ∈ st.books, q.2.invOk) :
    ∀ q ∈ (Op.apply now st op).books, q.2.invOk := by
  cases op with
  | opIssue b u d =>
    intro q hq
    have hq' : q ∈ (issue now st b u d).2.books := hq
    rcases issue_books now st b u d with he | ⟨bk, book2, -, hok, he⟩
    · rw [he] at hq'
      exact h q hq'
    · rw [he] at hq'
      rcases mem_setById hq' with h1 | ⟨-, h2⟩
      · rw [h1]
        exact Book.borrowBook_ok hok
      · exact h q h2
  | opReturn tid =>
    intro q hq
    have hq' : q ∈ (returnRoute now st tid).2.books := hq
    rcases returnRoute_books now st tid with he | ⟨t, bk, book2, -, -, hok, he⟩
    · rw [he] at hq'
      exact h q hq'
    · rw [he] at hq'
      rcases mem_setById hq' with h1 | ⟨-, h2⟩
      · rw [h1]
        exact Book.returnBook_inv hok
      · exact h q h2
  | opRenew tid =>
    intro q hq
    have hq' : q ∈ (renewRoute now st tid).2.books := hq
    rw [renewRoute_books now st tid] at hq'
    exact h q hq'
  | opSweep =>
    intro q hq
    have hq' : q ∈ (sweepLoop now (findOverdue now st.txns) st).state.books := hq
    rw [(sweepLoop_books now (findOverdue now st.txns) st).1] at hq'
    exact h q hq'

/-- C7 witness: the decremented book after a concrete issue. -/
theorem C7_inventory_invariant_preserved_witness : Book.invOk bkTaken :=
  C7_inventory_invariant_preserved 0 stIssue (Op.opIssue 0 0 none) (by decide)
    (0, bkTaken) (by decide)

/-- C8: the transaction-state invariant — `returnDate` is null exactly when
the status is one of active, overdue, renewed — is preserved by every
operation: creation stores a null `returnDate` with status active (or
overdue after the hook), renewal keeps the null `returnDate` in status
renewed, return sets both `returnDate` and status `returned`, and the sweep
promotes without touching `returnDate`. -/
theorem C8_returnDate_invariant_preserved (now : Int) (st : St) (op : Op)
    (h : ∀ q ∈ st.txns, q.2.retOk) :
    ∀ q ∈ (Op.apply now st op).txns, q.2.retOk := by
  cases op with
  | opIssue b u d =>
    intro q hq
    have hq' : q ∈ (issue now st b u d).2.txns := hq
    rcases issue_txns now st b u d with he | ⟨txn2, hs, he⟩
    · rw [he] at hq'
      exact h q hq'
    · rw [he] at hq'
      rcases List.mem_append.mp hq' with h1 | h2
      · exact h q h1
      · rw [List.mem_singleton.mp h2]
        refine retOk_of_save hs ?_
        exact ⟨fun _ hc => TStatus.noConfusion hc, fun _ => rfl⟩
  | opRenew tid =>
    intro q hq
    have hq' : q ∈ (renewRoute now st tid).2.txns := hq
    rcases renewRoute_txns now st tid with he | ⟨t, t2, hfind, hok, he⟩
    · rw [he] at hq'
      exact h q hq'
    · rw [he] at hq'
      rcases mem_setById hq' with h1 | ⟨-, h2⟩
      · rw [h1]
        obtain ⟨hact, -, hs⟩ := Txn.renewBook_ok hok
        refine retOk_of_save hs ?_
        have htro := h (tid, t) (findById_mem hfind)
        unfold Txn.retOk at htro ⊢
        show t.returnDate = none ↔ ¬ TStatus.renewed = TStatus.returned
        constructor
        · intro _ hc
          exact TStatus.noConfusion hc
        · intro _
          refine htro.mpr ?_
          rw [hact]
          intro hc
          exact TStatus.noConfusion hc
      · exact h q h2
  | opReturn tid =>
    intro q hq
    have hq' : q ∈ (returnRoute now st tid).2.txns := hq
    rcases returnRoute_txns now st tid with he | ⟨t, t2, hfind, hok, he⟩
    · rw [he] at hq'
      exact h q hq'
    · rw [he] at hq'
      rcases mem_setById hq' with h1 | ⟨-, h2⟩
      · rw [h1]
        obtain ⟨-, hs⟩ := Txn.returnBook_ok hok
        refine retOk_of_save hs ?_
        have hcf := calculateFine_fields now
          { t with returnDate := some now, status := TStatus.returned }
        unfold Txn.retOk
        rw [hcf.2.1, hcf.1]
        constructor
        · intro hc
          exact Option.noConfusion hc
        · intro hn
          exact absurd rfl hn
      · exact h q h2
  | opSweep =>
    intro q hq
    have hq' : q ∈ (sweepLoop now (findOverdue now st.txns) st).state.txns := hq
    refine sweepLoop_pointwise Txn.retOk now (findOverdue now st.txns) st
      ?_ h q hq'
    intro p hp t2 hs
    obtain ⟨hpm, ha, -⟩ := mem_findOverdue hp
    have hcf : Txn.calculateFine now p.2 = p.2 :=
      calculateFine_of_not_overdue now p.2
        (by rw [ha]; intro hc; exact TStatus.noConfusion hc)
    rw [hcf] at hs
    exact retOk_of_save hs (h p hpm)

/-- C8 witness: the transaction created by a concrete issue. -/
theorem C8_returnDate_invariant_preserved_witness : Txn.retOk tC1issued :=
  C8_returnDate_invariant_preserved 0 stIssue (Op.opIssue 0 0 none) (by decide)
    (1, tC1issued) (by decide)

/-- One operation preserves the all-fines-zero property. -/
theorem zeroFine_step (now : Int) (st : St) (op : Op)
    (h : ∀ q ∈ st.txns, q.2.fineAmount = 0) :
    ∀ q ∈ (Op.apply now st op).txns, q.2.fineAmount = 0 := by
  cases op with
  | opIssue b u d =>
    intro q hq
    have hq' : q ∈ (issue now st b u d).2.txns := hq
    rcases issue_txns now st b u d with he | ⟨txn2, hs, he⟩
    · rw [he] at hq'
      exact h q hq'
    · rw [he] at hq'
      rcases List.mem_append.mp hq' with h1 | h2
      · exact h q h1
      · rw [List.mem_singleton.mp h2]
        show txn2.fineAmount = 0
        rw [(Txn.save_fields hs).2.1]
        rfl
  | opRenew tid =>
    intro q hq
    have hq' : q ∈ (renewRoute now st tid).2.txns := hq
    rcases renewRoute_txns now st tid with he | ⟨t, t2, hfind, hok, he⟩
    · rw [he] at hq'
      exact h q hq'
    · rw [he] at hq'
      rcases mem_setById hq' with h1 | ⟨-, h2⟩
      · rw [h1]
        obtain ⟨-, -, hs⟩ := Txn.renewBook_ok hok
        show t2.fineAmount = 0
        rw [(Txn.save_fields hs).2.1]
        exact h (tid, t) (findById_mem hfind)
      · exact h q h2
  | opReturn tid =>
    intro q hq
    have hq' : q ∈ (returnRoute now st tid).2.txns := hq
    rcases returnRoute_txns now st tid with he | ⟨t, t2, hfind, hok, he⟩
    · rw [he] at hq'
      exact h q hq'
    · rw [he] at hq'
      rcases mem_setById hq' with h1 | ⟨-, h2⟩
      · rw [h1]
        obtain ⟨-, hs⟩ := Txn.returnBook_ok hok
        have hcf : Txn.calculateFine now
            { t with returnDate := some now, status := TStatus.returned } =
            { t with returnDate := some now, status := TStatus.returned } :=
          calculateFine_of_not_overdue now _
            (fun hc => TStatus.noConfusion hc)
        rw [hcf] at hs
        show t2.fineAmount = 0
        rw [(Txn.save_fields hs).2.1]
        exact h (tid, t) (findById_mem hfind)
      · exact h q h2
  | opSweep =>
    intro q hq
    have hq' : q ∈ (sweepLoop now (findOverdue now st.txns) st).state.txns := hq
    refine sweepLoop_pointwise (fun t => t.fineAmount = 0) now
      (findOverdue now st.txns) st ?_ h q hq'
    intro p hp t2 hs
    obtain ⟨hpm, ha, -⟩ := mem_findOverdue hp
    have hcf : Txn.calculateFine now p.2 = p.2 :=
      calculateFine_of_not_overdue now p.2
        (by rw [ha]; intro hc; exact TStatus.noConfusion hc)
    rw [hcf] at hs
    show t2.fineAmount = 0
    rw [(Txn.save_fields hs).2.1]
    exact h p hpm

/-- C10: in every store reachable from a transaction-free start through any
sequence of issue, renew, return and sweep operations, every transaction's
`fineAmount` is 0.  `calculateFine` writes a fine only when the status is
already `overdue` at call time, but the sweep invokes it while the fetched
documents are still `active` (the pre-save hook flips the status only
afterwards) and `returnBook` invokes it after already setting the status to
`returned` — so no reachable code path ever assigns a nonzero fine. -/
theorem C10_fineAmount_always_zero (st : St) (h : Reachable st) :
    ∀ q ∈ st.txns, q.2.fineAmount = 0 := by
  induction h with
  | start books users n =>
    intro q hq
    cases hq
  | step now op st' hr ih => exact zeroFine_step now st' op ih

/-- C10 witness: the transaction created by a concrete issue on a reachable
store. -/
theorem C10_fineAmount_always_zero_witness : tC1issued.fineAmount = 0 :=
  C10_fineAmount_always_zero (Op.apply 0 stIssue (Op.opIssue 0 0 none))
    (Reachable.step 0 (Op.opIssue 0 0 none) stIssue
      (Reachable.start [(0, bkFree)] [(0, usAct)] 1))
    (1, tC1issued) (by decide)



/-- C2 (amended): renewing an active transaction with `renewalCount = 0`
succeeds, setting `renewalCount = 1`, extending `dueDate` by 14 days and
setting status `renewed`; but because the status is then no longer `active`,
every subsequent renew attempt on the transaction fails with
`Only active transactions can be renewed` (surfaced by the route's catch
block as a 500, not a 4xx) — at most one renewal ever succeeds, and the
`renewalCount < 3` limit is unreachable. -/
theorem C2_renew_once_then_always_fails (now : Int) (t : Txn)
    (h1 : t.status = TStatus.active) (h2 : t.renewalCount = 0)
    (h3 : 0 ≤ t.fineAmount) (h4 : t.isNew = false) :
    ∃ t2, Txn.renewBook now t = Except.ok t2 ∧
      t2.renewalCount = 1 ∧ t2.status = TStatus.renewed ∧
      t2.dueDate = t.dueDate + 14 * msPerDay ∧
      ∀ now2 : Int, Txn.renewBook now2 t2 =
        Except.error "Only active transactions can be renewed" := by
  have hval : Txn.valid { t with
      renewalCount := t.renewalCount + 1,
      dueDate := t.dueDate + 14 * msPerDay,
      status := TStatus.renewed } = true := by
    unfold Txn.valid
    rw [Bool.and_eq_true]
    refine ⟨decide_eq_true h3, decide_eq_true ?_⟩
    show t.renewalCount + 1 ≤ 3
    omega
  have hdd : Txn.dueDateHook { t with
      renewalCount := t.renewalCount + 1,
      dueDate := t.dueDate + 14 * msPerDay,
      status := TStatus.renewed } = { t with
      renewalCount := t.renewalCount + 1,
      dueDate := t.dueDate + 14 * msPerDay,
      status := TStatus.renewed } :=
    dueDateHook_of_not_new _ h4
  have hod : Txn.overdueHook now { t with
      renewalCount := t.renewalCount + 1,
      dueDate := t.dueDate + 14 * msPerDay,
      status := TStatus.renewed } = { t with
      renewalCount := t.renewalCount + 1,
      dueDate := t.dueDate + 14 * msPerDay,
      status := TStatus.renewed } :=
    overdueHook_of_not_active now _ (fun hc => TStatus.noConfusion hc)
  have hsave := @Txn.save_of_valid now _ hval
  rw [hdd, hod] at hsave
  refine ⟨{ t with
      renewalCount := t.renewalCount + 1,
      dueDate := t.dueDate + 14 * msPerDay,
      status := TStatus.renewed, isNew := false }, ?_, ?_, rfl, rfl, ?_⟩
  · unfold Txn.renewBook
    rw [if_neg (show ¬ (3 : Int) ≤ t.renewalCount from by omega),
      if_neg (fun hc => hc h1), hsave]
  · show t.renewalCount + 1 = 1
    omega
  · intro now2
    unfold Txn.renewBook
    rw [if_neg (show ¬ (3 : Int) ≤ t.renewalCount + 1 from by omega),
      if_pos (show ¬ TStatus.renewed = TStatus.active from
        fun hc => TStatus.noConfusion hc)]

/-- C2 witness: a concrete renewal chain. -/
theorem C2_renew_once_then_always_fails_witness :
    ∃ t2, Txn.renewBook 5 tRenew0 = Except.ok t2 ∧
      t2.renewalCount = 1 ∧ t2.status = TStatus.renewed ∧
      t2.dueDate = tRenew0.dueDate + 14 * msPerDay ∧
      ∀ now2 : Int, Txn.renewBook now2 t2 =
        Except.error "Only active transactions can be renewed" :=
  C2_renew_once_then_always_fails 5 tRenew0 rfl rfl (by decide) rfl

/-- C4 (amended): every successful issue stores a transaction whose
`dueDate` is `borrowDate + 14 days` (with `borrowDate` the issue time),
regardless of whether the caller supplied a `requestedDueDate` — the
pre-save hook overwrites the route-computed value on every new borrow
document. -/
theorem C4_dueDate_always_borrow_plus_14 (now : Int) (st : St) (b u : Nat)
    (d : Option Int) (h : (issue now st b u d).1 = Resp.created) :
    ∃ pre t, (issue now st b u d).2.txns = pre ++ [(st.nextId, t)] ∧
      t.borrowDate = now ∧ t.dueDate = now + 14 * msPerDay := by
  obtain ⟨txn2, hs, he⟩ := issue_created h
  obtain ⟨-, ht2⟩ := Txn.save_eq_some hs
  subst ht2
  refine ⟨st.txns, _, he, ?_, ?_⟩
  · show (Txn.overdueHook now (Txn.dueDateHook (issueDoc now b u d))).borrowDate = now
    rw [(overdueHook_fields now _).2.2.2.2.1, (dueDateHook_fields _).2.2.2.2]
    exact rfl
  · show (Txn.overdueHook now (Txn.dueDateHook (issueDoc now b u d))).dueDate =
      now + 14 * msPerDay
    rw [(overdueHook_fields now _).2.2.2.1]
    unfold Txn.dueDateHook
    rw [if_pos ⟨rfl, rfl⟩]
    exact rfl

/-- C4 witness: a concrete issue with a requested due date. -/
theorem C4_dueDate_always_borrow_plus_14_witness :
    ∃ pre t, (issue 0 stIssue 0 0 (some 999)).2.txns = pre ++ [(1, t)] ∧
      t.borrowDate = 0 ∧ t.dueDate = 0 + 14 * msPerDay :=
  C4_dueDate_always_borrow_plus_14 0 stIssue 0 0 (some 999) (by decide)

/-- C5 (amended): the response of the issue handler is exactly the
first-failure-wins cascade `issueRespOrdered`: book exists (NotFound), user
exists (NotFound), book active with a free copy (Conflict, one combined
check — not a leading book-active check), zero overdue transactions
(Conflict), under the 5-book cap (Conflict), otherwise created.  The
cascade never reads any field of the user record, so a deactivated user
passes; the only extra hypothesis is that the stored books satisfy the
schema bounds on `totalCopies`, which makes the decrement save succeed. -/
theorem C5_issue_check_order (now : Int) (st : St) (b u : Nat)
    (d : Option Int)
    (hbk : ∀ q ∈ st.books, 1 ≤ q.2.totalCopies ∧ q.2.totalCopies ≤ 1000) :
    (issue now st b u d).1 = issueRespOrdered st b u := by
  unfold issue issueRespOrdered
  rcases hbook : findById st.books b with - | bk
  · rfl
  rcases husr : findById st.users u with - | us
  · rfl
  dsimp only
  by_cases hc : bk.canBorrow = true
  · have hcp : bk.isActive = true ∧ 0 < bk.availableCopies := by
      unfold Book.canBorrow at hc
      rw [Bool.and_eq_true] at hc
      exact ⟨hc.1, decide_eq_true_iff.mp hc.2⟩
    rw [if_neg (not_not_intro hc), if_neg (not_not_intro hcp)]
    by_cases ho : (st.txns.filter fun p =>
        decide (p.2.user = u ∧ p.2.status = TStatus.overdue)) = []
    · rw [if_neg (fun hlen => List.length_pos.mp hlen ho),
        if_neg (not_not_intro ho)]
      by_cases hcap : 5 ≤ (st.txns.filter fun p =>
          decide (p.2.user = u ∧
            (p.2.status = TStatus.active ∨
              p.2.status = TStatus.overdue))).length
      · rw [if_pos hcap, if_pos hcap]
      · rw [if_neg hcap, if_neg hcap]
        have hbv := hbk (b, bk) (findById_mem hbook)
        have hbsave : Book.valid { bk with
            availableCopies := bk.availableCopies - 1,
            borrowCount := bk.borrowCount + 1,
            lastBorrowed := some now } = true := by
          unfold Book.valid
          rw [Bool.and_eq_true, Bool.and_eq_true]
          refine ⟨⟨decide_eq_true ?_, decide_eq_true ?_⟩, decide_eq_true ?_⟩
          · exact hbv.1
          · exact hbv.2
          · show 0 ≤ bk.availableCopies - 1
            have := hcp.2
            omega
        have hbb : bk.borrowBook now = Except.ok (Book.capHook { bk with
            availableCopies := bk.availableCopies - 1,
            borrowCount := bk.borrowCount + 1,
            lastBorrowed := some now }) := by
          unfold Book.borrowBook Book.save
          rw [if_pos hc, if_pos hbsave]
        rw [hbb]
        have hts : Txn.save now (issueDoc now b u d) =
            some { Txn.overdueHook now
              (Txn.dueDateHook (issueDoc now b u d)) with isNew := false } :=
          Txn.save_of_valid rfl
        rw [hts]
    · rw [if_pos (List.length_pos.mpr ho), if_pos ho]
  · rw [if_pos hc, if_pos (fun hcp => hc (by
      unfold Book.canBorrow
      rw [Bool.and_eq_true]
      exact ⟨hcp.1, decide_eq_true hcp.2⟩))]

/-- C5 witness: a concrete successful issue matches the cascade. -/
theorem C5_issue_check_order_witness :
    (issue 0 stIssue 0 0 none).1 = issueRespOrdered stIssue 0 0 :=
  C5_issue_check_order 0 stIssue 0 0 none (by decide)


/-- C6 (amended): the return operation succeeds — incrementing the book's
`availableCopies` by exactly 1 and finalizing the transaction — when the
transaction exists and is not yet returned, its book exists, and the book's
`availableCopies` is still strictly below `totalCopies`.  There is no cap:
when `availableCopies` has already reached `totalCopies` the book update
throws `All copies are already available` and the request fails with a
server error (not the claimed success, and not a Conflict), with the
transaction nevertheless already marked returned (see the
counterexample). -/
theorem C6_return_succeeds_below_cap (now : Int) (st : St) (tid : Nat)
    (t : Txn) (bk : Book)
    (ht : findById st.txns tid = some t)
    (hns : ¬ t.status = TStatus.returned)
    (hv : t.valid = true)
    (hb : findById st.books t.book = some bk)
    (hlt : bk.availableCopies < bk.totalCopies)
    (hbv : 1 ≤ bk.totalCopies ∧ bk.totalCopies ≤ 1000 ∧
      0 ≤ bk.availableCopies) :
    (returnRoute now st tid).1 = Resp.ok ∧
      (∃ t2, findById (returnRoute now st tid).2.txns tid = some t2 ∧
        t2.status = TStatus.returned ∧ t2.returnDate = some now ∧
        t2.fineAmount = t.fineAmount) ∧
      (∃ bk2, findById (returnRoute now st tid).2.books t.book = some bk2 ∧
        bk2.availableCopies = bk.availableCopies + 1) := by
  have hcalc : Txn.calculateFine now
      { t with returnDate := some now, status := TStatus.returned } =
      { t with returnDate := some now, status := TStatus.returned } :=
    calculateFine_of_not_overdue now _ (fun hc => TStatus.noConfusion hc)
  have hvrec : Txn.valid
      { t with returnDate := some now, status := TStatus.returned } = true := hv
  have htsave := @Txn.save_of_valid now _ hvrec
  have hok : Txn.returnBook now t = Except.ok
      { Txn.overdueHook now (Txn.dueDateHook
        { t with returnDate := some now, status := TStatus.returned }) with
        isNew := false } := by
    unfold Txn.returnBook
    rw [if_neg hns, hcalc, htsave]
  have hbval : Book.valid
      { bk with availableCopies := bk.availableCopies + 1 } = true := by
    unfold Book.valid
    rw [Bool.and_eq_true, Bool.and_eq_true]
    refine ⟨⟨decide_eq_true ?_, decide_eq_true ?_⟩, decide_eq_true ?_⟩
    · exact hbv.1
    · exact hbv.2.1
    · show 0 ≤ bk.availableCopies + 1
      have := hbv.2.2
      omega
  have hcap : Book.capHook
      { bk with availableCopies := bk.availableCopies + 1 } =
      { bk with availableCopies := bk.availableCopies + 1 } := by
    unfold Book.capHook
    rw [if_neg (show ¬ bk.totalCopies < bk.availableCopies + 1 from by omega)]
  have hbb : bk.returnBook = Except.ok
      { bk with availableCopies := bk.availableCopies + 1 } := by
    unfold Book.returnBook Book.save
    rw [if_pos hlt, if_pos hbval, hcap]
  have heq : returnRoute now st tid = (Resp.ok,
      { st with
        txns := setById st.txns tid
          { Txn.overdueHook now (Txn.dueDateHook
            { t with returnDate := some now, status := TStatus.returned }) with
            isNew := false },
        books := setById st.books t.book
          { bk with availableCopies := bk.availableCopies + 1 } }) := by
    unfold returnRoute
    rw [ht]
    dsimp only
    rw [if_neg hns, hok]
    dsimp only
    rw [hb]
    dsimp only
    rw [hbb]
  refine ⟨by rw [heq],
    ⟨{ Txn.overdueHook now (Txn.dueDateHook
        { t with returnDate := some now, status := TStatus.returned }) with
        isNew := false }, ?_, ?_, ?_, ?_⟩,
    ⟨{ bk with availableCopies := bk.availableCopies + 1 }, ?_, rfl⟩⟩
  · rw [heq]
    exact findById_setById ht
  · have hst := Txn.save_status_returned htsave
    exact hst.mpr rfl
  · have hf := (Txn.save_fields htsave).1
    exact hf
  · have hf := (Txn.save_fields htsave).2.1
    exact hf
  · rw [heq]
    exact findById_setById hb

/-- C6 witness: a concrete return with the book's copy still out. -/
theorem C6_return_succeeds_below_cap_witness :
    (returnRoute 200 stRet 0).1 = Resp.ok ∧
      (∃ t2, findById (returnRoute 200 stRet 0).2.txns 0 = some t2 ∧
        t2.status = TStatus.returned ∧ t2.returnDate = some 200 ∧
        t2.fineAmount = tLateActive.fineAmount) ∧
      (∃ bk2, findById (returnRoute 200 stRet 0).2.books tLateActive.book =
          some bk2 ∧
        bk2.availableCopies = bkTaken.availableCopies + 1) :=
  C6_return_succeeds_below_cap 200 stRet 0 tLateActive bkTaken (by decide)
    (by decide) (by decide) (by decide) (by decide) (by decide)

end LMS
